import Mathlib

/-!
Shallow embedding of buckshot.py (Buckshot clustering: HAC over a random
sample followed by single-pass nearest-centroid assignment).

Modelling conventions:
* a pandas row (`pd.Series`) is a `Row`: an ordered association list from
  attribute name to value;
* numeric cell values are modelled as rationals, nominal ones as strings
  (`Val`);
* Python exceptions are modelled with `Except PyErr`; a raised exception is
  `Except.error`, a normal return is `Except.ok`;
* `float`/numpy arithmetic is modelled exactly over `ℚ`; `math.sqrt` is the
  real square root; `np.inf` is the top element of `WithTop ℚ`;
* randomness (`random.sample`) is an oracle: the chosen index list is passed
  in as a parameter, constrained by the hypotheses that `random.sample`
  guarantees (distinct, in-range indices of the requested length).
-/

namespace BuckshotML

/-- Python exception kinds raised by the modelled code paths.  `invalidCode`
stands for the SyntaxError caused by the bracket-unbalanced line 108 of
buckshot.py (see `calculate_centroid`). -/
inductive PyErr
  | keyError
  | typeError
  | indexError
  | invalidCode
deriving DecidableEq, Repr

/-- A cell value: continuous (float) or nominal (string). -/
inductive Val
  | num (q : ℚ)
  | str (s : String)
deriving DecidableEq, Repr

/-- A data row: ordered mapping from attribute name to value. -/
abbrev Row := List (String × Val)

instance {ε α : Type} [DecidableEq ε] [DecidableEq α] : DecidableEq (Except ε α)
  | .ok a, .ok b =>
    if h : a = b then .isTrue (by rw [h]) else .isFalse (by intro hh; cases hh; exact h rfl)
  | .ok _, .error _ => .isFalse (by intro hh; cases hh)
  | .error _, .ok _ => .isFalse (by intro hh; cases hh)
  | .error e, .error f =>
    if h : e = f then .isTrue (by rw [h]) else .isFalse (by intro hh; cases hh; exact h rfl)

/-- Label lookup `y[i]` on a pandas Series, modelled as first-match lookup in
the association list; `none` models the `KeyError` case. -/
def lookupVal (y : Row) (k : String) : Option Val :=
  (y.find? (fun p => decide (p.1 = k))).map (fun p => p.2)

/-- The attribute names of a row, in order. -/
def keys (x : Row) : List String := x.map (fun p => p.1)

/-- One summand of `distance` (buckshot.py lines 342-349) for the pair of
values `j = v` (from `x`) and `k = y[i]`.  Only `j` is type-tested with
`type(j) == str`:
* `j` a string: a match contributes `(0-0)**2 = 0`, a mismatch `(0-1)**2 = 1`
  (comparing a Python string to a non-string with `==` is `False`, no error);
* both numeric: `(j-k)**2`;
* `j` numeric but `k` a string: `(j-k)**2` raises `TypeError`. -/
def contrib : Val → Val → Except PyErr ℚ
  | .str s, k => .ok (if k = .str s then 0 else 1)
  | .num a, .num b => .ok ((a - b) ^ 2)
  | .num _, .str _ => .error .typeError

/-- The accumulator loop of `distance` (buckshot.py lines 337-349): iterate
the items of `x` in order, look each key up in `y` (raising `KeyError` at the
first absent key, re-raised at line 357), and sum the contributions.  The
first raised exception aborts the loop, as in Python. -/
def distance_sq : Row → Row → Except PyErr ℚ
  | [], _ => .ok 0
  | (i, j) :: xs, y =>
    match lookupVal y i with
    | none => .error .keyError
    | some k =>
      match contrib j k with
      | .error e => .error e
      | .ok c =>
        match distance_sq xs y with
        | .error e => .error e
        | .ok rest => .ok (c + rest)

/-- Euclidean distance of two rows (buckshot.py `distance`, lines 323-359):
the summed squared differences, square-rooted unless `squared=True`. -/
noncomputable def distance (x y : Row) (squared : Bool) : Except PyErr ℝ :=
  (distance_sq x y).map (fun d => if squared then (d : ℝ) else Real.sqrt (d : ℝ))

/-- Whether a value is a Python string (`type(v) == str`). -/
def isStr : Val → Bool
  | .str _ => true
  | .num _ => false

/-- Two rows have positionally matching value kinds (both continuous or both
nominal at each position) — the typing part of sharing an attribute schema. -/
def alignedKinds : Row → Row → Bool
  | [], [] => true
  | p :: xs, q :: ys => (isStr p.2 == isStr q.2) && alignedKinds xs ys
  | _, _ => false

/-- Whether every attribute of `x` that is found in `y` produces a
well-typed contribution (no `TypeError` summand). -/
def wellTyped (x y : Row) : Bool :=
  x.all (fun p =>
    match lookupVal y p.1 with
    | none => true
    | some k =>
      match contrib p.2 k with
      | .ok _ => true
      | .error _ => false)

/-- Whether some attribute of `x` is absent from `y` (the `KeyError` source
inside `distance`). -/
def missingSome (x y : Row) : Bool :=
  x.any (fun p => (lookupVal y p.1).isNone)

/-! ### Sorting and pandas mode -/

/-- Lexicographic comparison of char lists by code point (Python / pandas
string order for the ASCII data at hand). -/
def charListLE : List Char → List Char → Bool
  | [], _ => true
  | _ :: _, [] => false
  | a :: as, b :: bs =>
    if a.val.toNat < b.val.toNat then true
    else if b.val.toNat < a.val.toNat then false
    else charListLE as bs

/-- String order used by pandas when sorting mode values. -/
def strLE (s t : String) : Bool := charListLE s.data t.data

/-- Ordered insertion for the sorting model. -/
def insertLE (le : α → α → Bool) (a : α) : List α → List α
  | [] => [a]
  | b :: bs => if le a b then a :: b :: bs else b :: insertLE le a bs

/-- Insertion sort, modelling the ascending sort pandas applies to modes. -/
def sortLE (le : α → α → Bool) : List α → List α
  | [] => []
  | a :: as => insertLE le a (sortLE le as)

/-- Occurrence count of `v` in `l`. -/
def cnt [DecidableEq α] (v : α) : List α → Nat
  | [] => 0
  | a :: as => (if a = v then 1 else 0) + cnt v as

/-- Maximum of a list of naturals (0 on empty). -/
def maxNat (l : List Nat) : Nat := l.foldr max 0

/-- The largest occurrence count over the values of `l`. -/
def maxCnt [DecidableEq α] (l : List α) : Nat := maxNat (l.map (fun v => cnt v l))

/-- The pandas `Series.mode()` of the non-null cells `l`: all values of
maximal occurrence count, in ascending order (pandas sorts the modes; ties
are NOT broken towards any particular record). -/
def modeListBy [DecidableEq α] (le : α → α → Bool) (l : List α) : List α :=
  sortLE le (l.dedup.filter (fun v => decide (cnt v l = maxCnt l)))

/-- Mode list for a string-valued (nominal) column. -/
def modeList (l : List String) : List String := modeListBy strLE l

/-- Pandas ordering on homogeneous column values (mixed pairs never compared
for the datasets at hand). -/
def valLE : Val → Val → Bool
  | .num a, .num b => decide (a ≤ b)
  | .str s, .str t => strLE s t
  | .num _, .str _ => true
  | .str _, .num _ => false

/-- Mode list for a column of arbitrary (homogeneous) values. -/
def modeListV (l : List Val) : List Val := modeListBy valLE l

/-! ### Cluster and centroid -/

/-- The numeric cells of column `c` over the rows `vs` (missing and
non-numeric cells are skipped, as pandas `mean` skips NaN). -/
def colNums (vs : List Row) (c : String) : List ℚ :=
  vs.filterMap (fun r =>
    match lookupVal r c with
    | some (.num q) => some q
    | _ => none)

/-- The string cells of column `c` over the rows `vs` (missing cells are
skipped, as pandas `mode` drops NaN). -/
def colStrs (vs : List Row) (c : String) : List String :=
  vs.filterMap (fun r =>
    match lookupVal r c with
    | some (.str s) => some s
    | _ => none)

/-- Arithmetic mean of a list of rationals (pandas `DataFrame.mean` per
column; division by zero on an empty column yields 0 here, standing in for
pandas NaN — never reached under the non-empty-cluster hypotheses used). -/
def listMean (l : List ℚ) : ℚ := l.sum / l.length

/-- The first row's value at nominal column `c`, as the (at most one-element)
cell list `iloc[0]` contributes for that column. -/
def firstStr (r : Row) (c : String) : List String :=
  match lookupVal r c with
  | some (.str s) => [s]
  | _ => []

/-- A centroid: the concatenation `pd.concat([mean, mode], axis=0)` of the
per-column means and the per-column pandas mode rows.  Each nominal column
carries the full list of modal values (pandas `DataFrame.mode()` returns one
row per tied mode, sorted ascending). -/
structure Centroid where
  contPart : List (String × ℚ)
  nomPart : List (String × List String)
deriving DecidableEq, Repr

/-- Model of `Cluster.calculate_centroid` (buckshot.py lines 99-109):
* `mean = values[continuous].mean()` — per-column arithmetic means;
* `mode = values[nominal].mode()` — per-column pandas mode rows;
* `if len(mode) == 0` (no column has any mode, e.g. no rows): fall back to
  `values[nominal].iloc[0]`, which raises `IndexError` when there are no rows;
* when the mode frame has several rows and some column has fewer modes than
  another, pandas pads the short columns with NaN; the code then reaches line
  108, `mode = self.values[self.values[self.nominal].iloc[0]`, whose brackets
  are unbalanced — a SyntaxError, modelled as `PyErr.invalidCode` (in reality
  the whole module fails to parse because of this line);
* otherwise the centroid is `pd.concat([mean, mode], axis=0)`. -/
def calculate_centroid (continuous nominal : List String) (vs : List Row) :
    Except PyErr Centroid :=
  let meanPart := continuous.map (fun c => (c, listMean (colNums vs c)))
  let modeTbl := nominal.map (fun c => (c, modeList (colStrs vs c)))
  let nRows := maxNat (modeTbl.map (fun p => p.2.length))
  if nRows = 0 then
    match vs with
    | [] => .error .indexError
    | r0 :: _ => .ok ⟨meanPart, nominal.map (fun c => (c, firstStr r0 c))⟩
  else if modeTbl.any (fun p => decide (p.2.length < nRows)) then
    .error .invalidCode
  else .ok ⟨meanPart, modeTbl⟩

/-- A `Cluster` (buckshot.py lines 40-124): the member rows (`self.values`),
the attribute partition fixed at construction, and the stored centroid.
The left/right sub-cluster tree is irrelevant to every claim and omitted. -/
structure ClusterSt where
  continuous : List String
  nominal : List String
  values : List Row
  centroid : Centroid
deriving DecidableEq, Repr

/-- Cluster construction: store the rows and compute the centroid (a raised
exception in `calculate_centroid` propagates out of `__init__`). -/
def mkCluster (continuous nominal : List String) (vs : List Row) :
    Except PyErr ClusterSt :=
  (calculate_centroid continuous nominal vs).map
    (fun cen => ⟨continuous, nominal, vs, cen⟩)

/-- Model of `Cluster.add` (lines 90-97): append the new values to
`self.values` and recompute the centroid. -/
def ClusterSt.add (cl : ClusterSt) (r : Row) : Except PyErr ClusterSt :=
  mkCluster cl.continuous cl.nominal (cl.values ++ [r])

/-- Model of `Cluster.merge_clusters` (lines 76-88): append all of the other
cluster's values (`self.add(new_cluster.get_values())`) and recompute the
centroid; the left/right bookkeeping does not touch `values`. -/
def ClusterSt.merge_clusters (cl other : ClusterSt) : Except PyErr ClusterSt :=
  mkCluster cl.continuous cl.nominal (cl.values ++ other.values)

/-- A Python return value: `None` or a float. -/
inductive PyRet
  | pyNone
  | pyVal (q : ℚ)
deriving DecidableEq, Repr

/-- The `Cluster` class defines no `__len__` slot: its `len` (lines 121-124)
is an ordinary classmethod, which Python's built-in `len()` does not consult. -/
def clusterHasDunderLen : Bool := false

/-- Evaluation of `len(self)` on a `Cluster` instance: raises `TypeError`
("object of type 'Cluster' has no len()") because the class defines no
`__len__`. -/
def pyLenCluster (cl : ClusterSt) : Except PyErr Nat :=
  if clusterHasDunderLen then .ok cl.values.length else .error .typeError

/-- Model of `Cluster.intra_distance` (lines 114-119): the header
`for i in range(0, len(self))` evaluates `len(self)` first, which raises
`TypeError`, so the loop body never runs; and the function body never
returns the accumulated `dist`, so a normal exit would produce `None`. -/
def intra_distance (cl : ClusterSt) : Except PyErr PyRet :=
  (pyLenCluster cl).map (fun _n => PyRet.pyNone)

/-! ### Preprocessing: missing values -/

/-- Pandas column dtypes relevant to `replace_missing_values`.  A column that
contains NaN can never have dtype `int64` (NaN forces `float64`). -/
inductive Dtype
  | int64
  | float64
  | object
deriving DecidableEq, Repr

/-- A dataset column: its dtype and its cells (`none` = missing/NaN). -/
structure PCol where
  dtype : Dtype
  cells : List (Option Val)
deriving DecidableEq, Repr

/-- The non-null cells of a column. -/
def presentVals (c : PCol) : List Val := c.cells.filterMap id

/-- The numeric values among a list of cells. -/
def numsOf (l : List Val) : List ℚ :=
  l.filterMap (fun v =>
    match v with
    | .num q => some q
    | .str _ => none)

/-- Pandas `Series.mean()` over the non-null cells. -/
def seriesMean (c : PCol) : ℚ := listMean (numsOf (presentVals c))

/-- Pandas `mode()[0]`: the smallest modal value of the non-null cells;
raises `IndexError` ("index 0 is out of bounds") when the mode is empty
(all cells null). -/
def seriesMode0 (c : PCol) : Except PyErr Val :=
  match modeListV (presentVals c) with
  | [] => .error .indexError
  | v :: _ => .ok v

/-- Pandas `fillna(v)`: replace every missing cell by `v`. -/
def fillna (c : PCol) (v : Val) : PCol :=
  ⟨c.dtype, c.cells.map (fun x => some (x.getD v))⟩

/-- Model of the per-column body of `Buckshot.replace_missing_values`
(lines 168-176): a column of dtype `int64` has its gaps filled with the
column mean; EVERY other column — including real-valued `float64` columns —
has its gaps filled with the column mode `mode()[0]`. -/
def replaceMissingCol (c : PCol) : Except PyErr PCol :=
  if c.dtype = Dtype.int64 then .ok (fillna c (.num (seriesMean c)))
  else (seriesMode0 c).map (fillna c)

/-- Model of `Buckshot.replace_missing_values` (lines 164-176) over all
columns. -/
def replace_missing_values (df : List PCol) : Except PyErr (List PCol) :=
  df.mapM replaceMissingCol

/-! ### Sampling -/

/-- Model of `int(math.sqrt(n))` (line 188): the floor of the real square
root (float truncation towards zero). -/
def floorSqrt (n : Nat) : Nat :=
  maxNat ((List.range (n + 1)).filter (fun k => decide (k * k ≤ n)))

/-- The sample size the specification claims: `round(sqrt(n))`, the nearest
integer to the real square root (`sqrt n = floorSqrt n + 1/2` is impossible
for integer `n`, so rounding is unambiguous). -/
def roundSqrt (n : Nat) : Nat :=
  if (2 * floorSqrt n + 1) ^ 2 ≤ 4 * n then floorSqrt n + 1 else floorSqrt n

/-- Model of `Buckshot.get_random_samples` (lines 185-191): given the index
list `rows` produced by `random.sample(df.index, int(math.sqrt(n)))`, the
sample is `df.ix[rows]` (the rows at those labels, in draw order) and the
remainder is `df.drop(rows)` (the other rows, in dataset order). -/
def get_random_samples (df : List Row) (rows : List Nat) : List Row × List Row :=
  (rows.filterMap (fun i => df.get? i),
   (df.enum.filter (fun p => decide (p.1 ∉ rows))).map (fun p => p.2))

/-! ### The distance matrix and the HAC merge loop -/

/-- Matrix entries: distances, with `np.inf` on the diagonal. -/
abbrev Qinf := WithTop ℚ

/-- Binary minimum on matrix entries (`min` of numpy). -/
def qmin (a b : Qinf) : Qinf := if a ≤ b then a else b

/-- Model of `matrix.min()`: the minimum over all cells (⊤ for an empty
matrix). -/
def matMin (m : List (List Qinf)) : Qinf :=
  m.foldr (fun row acc => row.foldr qmin acc) ⊤

/-- The column positions (paired with row index `r`) of the cells of one row
equal to `mn`, scanning columns left to right starting at column `c`. -/
def minRowGo (mn : Qinf) (r : Nat) : Nat → List Qinf → List (Nat × Nat)
  | _, [] => []
  | c, v :: vs => (if v = mn then [(r, c)] else []) ++ minRowGo mn r (c + 1) vs

/-- The coordinates of all cells equal to `mn`, in row-major order, scanning
rows from index `r`. -/
def minCellsGo (mn : Qinf) : Nat → List (List Qinf) → List (Nat × Nat)
  | _, [] => []
  | r, row :: rest => minRowGo mn r 0 row ++ minCellsGo mn (r + 1) rest

/-- The row-major coordinates of the minimal cells
(`np.where(matrix == matrix.min())`). -/
def minCells (m : List (List Qinf)) : List (Nat × Nat) :=
  minCellsGo (matMin m) 0 m

/-- Model of `np.where(matrix == matrix.min())[0]`: the row coordinates of
the minimal cells, in row-major (hence non-decreasing) order. -/
def minRowCoords (m : List (List Qinf)) : List Nat :=
  (minCells m).map (fun p => p.1)

/-- The pair `(min_x, min_y) = (minimum[0], minimum[1])` selected by the
merge loop (lines 213-215), when the coordinate array has two entries;
`none` models the `IndexError` raised by `minimum[1]` otherwise. -/
def hacSelect (m : List (List Qinf)) : Option (Nat × Nat) :=
  match minRowCoords m with
  | mx :: my :: _ => some (mx, my)
  | _ => none

/-- Whether the minimum of `m` occurs at exactly one symmetric pair of
off-diagonal cells. -/
def oneSymmPair (m : List (List Qinf)) : Prop :=
  ∃ p ∈ minCells m, p.1 ≠ p.2 ∧ minCells m = [p, (p.2, p.1)]

instance (m : List (List Qinf)) : Decidable (oneSymmPair m) := by
  unfold oneSymmPair; infer_instance

/-- The pairwise linkage distances the loop works from, recomputed from the
current cluster list: `init_matrix` (lines 221-246) computes
`distance(row1, row2)` over the single-member clusters and `update_matrix`
(lines 248-268) computes `distance(cluster1.centroid, cluster2.centroid)`.
Both are the fallible linkage `d` between two clusters: a distance call can
itself raise (TypeError or KeyError, see `distance_sq`), and the first
raised exception aborts the build in row-major order, exactly as the nested
Python loops do.  Every pair INCLUDING the diagonal is computed (the
diagonal is overwritten with `np.inf` only afterwards by
`np.fill_diagonal`). -/
def buildMatrix (d : ClusterSt → ClusterSt → Except PyErr ℚ)
    (cs : List ClusterSt) : Except PyErr (List (List ℚ)) :=
  cs.mapM (fun c1 => cs.mapM (fun c2 => d c1 c2))

/-- Model of `np.fill_diagonal(matrix, np.inf)`: cell (i, i) becomes inf,
every other cell keeps its computed distance. -/
def maskDiag (m : List (List ℚ)) : List (List Qinf) :=
  m.enum.map (fun p =>
    p.2.enum.map (fun q => if p.1 = q.1 then (⊤ : Qinf) else ((q.2 : ℚ) : Qinf)))

/-- Lines 216-218 of the merge loop at the already-selected pair:
`to_merge = clusters.pop(min_y)` (raises `IndexError` if min_y is out of
range), then `clusters[min_x].merge_clusters(to_merge)` — indexing the list
AFTER the pop (raises `IndexError` if `min_x` is out of range of the popped
list) — which appends `to_merge`'s values and recomputes the centroid
through `calculate_centroid`, whose own exceptions (`indexError`, or the
line-108 SyntaxError modelled as `invalidCode`) propagate and abort the
loop. -/
def hacMergeAt (cs : List ClusterSt) (min_x min_y : Nat) :
    Except PyErr (List ClusterSt) :=
  if hy : min_y < cs.length then
    if hx : min_x < (cs.eraseIdx min_y).length then
      match ((cs.eraseIdx min_y).get ⟨min_x, hx⟩).merge_clusters
          (cs.get ⟨min_y, hy⟩) with
      | .error e => .error e
      | .ok merged => .ok ((cs.eraseIdx min_y).set min_x merged)
    else .error .indexError
  else .error .indexError

/-- One iteration of the merge loop (lines 211-219) over real clusters
(`ClusterSt`, with stored centroids):
* the similarity matrix is the masked `buildMatrix` of the current cluster
  list; an exception raised by a linkage distance call aborts the loop;
* `minimum = np.where(matrix == matrix.min())[0]`; `minimum[0]` and
  `minimum[1]` raise `IndexError` when fewer than two minimal-cell row
  coordinates exist;
* the pop and the in-place merge are `hacMergeAt`.
One deviation: Python rebuilds the matrix right after each merge
(update_matrix) while this model rebuilds it at the next iteration's entry;
the matrix is a pure function of the cluster list, so the only difference
is that an exception raised by the rebuild that follows the FINAL merge
surfaces in Python but not here — no normally-returned result differs. -/
def hacStep (d : ClusterSt → ClusterSt → Except PyErr ℚ)
    (cs : List ClusterSt) : Except PyErr (List ClusterSt) :=
  match buildMatrix d cs with
  | .error e => .error e
  | .ok mq =>
    match minRowCoords (maskDiag mq) with
    | min_x :: min_y :: _ => hacMergeAt cs min_x min_y
    | _ => .error .indexError

/-- The merge loop `while len(clusters) > k`, with fuel (the loop runs at
most `len(clusters)` times before the guard must fail or an exception be
raised, so `hac` below supplies fuel `cs.length`). -/
def hacLoop (d : ClusterSt → ClusterSt → Except PyErr ℚ) (k : Nat) :
    Nat → List ClusterSt → Except PyErr (List ClusterSt)
  | 0, cs => .ok cs
  | fuel + 1, cs =>
    if cs.length > k then
      match hacStep d cs with
      | .error e => .error e
      | .ok cs2 => hacLoop d k fuel cs2
    else .ok cs

/-- Model of the merge loop of `Buckshot.hac` (lines 211-219), starting from
the initial single-record clusters `cs`. -/
def hac (d : ClusterSt → ClusterSt → Except PyErr ℚ) (k : Nat)
    (cs : List ClusterSt) : Except PyErr (List ClusterSt) :=
  hacLoop d k cs.length cs

/-- A 5×5 distance matrix whose minimum 1 occurs at the two symmetric pairs
(1,2)/(2,1) and (3,4)/(4,3) — a tie across two distinct cluster pairs. -/
def mTwoPairs : List (List Qinf) :=
  [[⊤, ((2:ℚ):Qinf), ((2:ℚ):Qinf), ((2:ℚ):Qinf), ((2:ℚ):Qinf)],
   [((2:ℚ):Qinf), ⊤, ((1:ℚ):Qinf), ((2:ℚ):Qinf), ((2:ℚ):Qinf)],
   [((2:ℚ):Qinf), ((1:ℚ):Qinf), ⊤, ((2:ℚ):Qinf), ((2:ℚ):Qinf)],
   [((2:ℚ):Qinf), ((2:ℚ):Qinf), ((2:ℚ):Qinf), ⊤, ((1:ℚ):Qinf)],
   [((2:ℚ):Qinf), ((2:ℚ):Qinf), ((2:ℚ):Qinf), ((1:ℚ):Qinf), ⊤]]

/-- Whether `m` is a list of strictly maximal count in `l` (the unique mode
of a nominal column). -/
def isUniqueMode [DecidableEq α] (l : List α) (m : α) : Prop :=
  m ∈ l ∧ ∀ v ∈ l, v ≠ m → cnt v l < cnt m l

instance [DecidableEq α] (l : List α) (m : α) : Decidable (isUniqueMode l m) := by
  unfold isUniqueMode; infer_instance

/-! ## Lemmas about the distance function -/

lemma lookupVal_cons_self (i : String) (v : Val) (ys : Row) :
    lookupVal ((i, v) :: ys) i = some v := by
  simp [lookupVal]

lemma lookupVal_cons_ne (i j : String) (v : Val) (ys : Row) (h : i ≠ j) :
    lookupVal ((i, v) :: ys) j = lookupVal ys j := by
  simp [lookupVal, List.find?_cons, h]

lemma distance_sq_skip (xs : Row) (i : String) (v : Val) (ys : Row)
    (h : i ∉ keys xs) :
    distance_sq xs ((i, v) :: ys) = distance_sq xs ys := by
  induction xs with
  | nil => rfl
  | cons p xs ih =>
    obtain ⟨a, b⟩ := p
    simp only [keys, List.map_cons, List.mem_cons, not_or] at h
    obtain ⟨hia, hxs⟩ := h
    simp only [distance_sq]
    rw [lookupVal_cons_ne _ _ _ _ hia, ih hxs]

lemma contrib_symm (j k : Val) (h : isStr j = isStr k) :
    contrib j k = contrib k j := by
  cases j with
  | num a =>
    cases k with
    | num b =>
      simp only [contrib, Except.ok.injEq]
      ring
    | str t => simp [isStr] at h
  | str s =>
    cases k with
    | num b => simp [isStr] at h
    | str t =>
      simp only [contrib, Val.str.injEq, Except.ok.injEq]
      by_cases hst : s = t
      · subst hst; simp
      · simp [Val.str.injEq, hst, Ne.symm hst]

lemma distance_sq_symm : ∀ (x y : Row), keys x = keys y → (keys x).Nodup →
    alignedKinds x y = true → distance_sq x y = distance_sq y x := by
  intro x
  induction x with
  | nil =>
    intro y hk _ _
    have : y = [] := by
      have := hk.symm
      simpa [keys, List.map_eq_nil_iff] using this
    subst this; rfl
  | cons p xs ih =>
    intro y hk hnd ha
    obtain ⟨i, j⟩ := p
    cases y with
    | nil => simp [keys] at hk
    | cons q ys =>
      obtain ⟨i2, k⟩ := q
      simp only [keys, List.map_cons, List.cons.injEq] at hk
      obtain ⟨hi, hks⟩ := hk
      subst hi
      simp only [alignedKinds, Bool.and_eq_true, beq_iff_eq] at ha
      obtain ⟨hkind, hal⟩ := ha
      simp only [keys, List.map_cons, List.nodup_cons] at hnd
      obtain ⟨hni, hnd2⟩ := hnd
      have hniy : i ∉ keys ys := by unfold keys; rw [← hks]; exact hni
      simp only [distance_sq, lookupVal_cons_self]
      rw [distance_sq_skip xs i k ys hni, distance_sq_skip ys i j xs hniy]
      rw [contrib_symm j k hkind]
      rw [ih ys hks hnd2 hal]

lemma distance_sq_keyError : ∀ (x y : Row), wellTyped x y = true →
    missingSome x y = true → distance_sq x y = .error .keyError := by
  intro x
  induction x with
  | nil =>
    intro y _ hm
    simp [missingSome] at hm
  | cons p xs ih =>
    intro y hw hm
    obtain ⟨a, b⟩ := p
    simp only [wellTyped, List.all_cons, Bool.and_eq_true] at hw
    obtain ⟨hw1, hw2⟩ := hw
    simp only [missingSome, List.any_cons, Bool.or_eq_true] at hm
    cases hl : lookupVal y a with
    | none => simp only [distance_sq, hl]
    | some k =>
      have hw1b : (match contrib b k with
          | Except.ok _ => true
          | Except.error _ => false) = true := by
        rw [hl] at hw1; exact hw1
      cases hc : contrib b k with
      | error e => rw [hc] at hw1b; simp at hw1b
      | ok c =>
        have hm2 : missingSome xs y = true := by
          rcases hm with hm | hm
          · rw [hl] at hm; simp [Option.isNone] at hm
          · exact hm
        simp only [distance_sq, hl, hc, ih y hw2 hm2]

/-! ## Lemmas about modes and centroids -/

lemma le_maxNat : ∀ (l : List Nat) (x : Nat), x ∈ l → x ≤ maxNat l := by
  intro l
  induction l with
  | nil => intro x h; cases h
  | cons a as ih =>
    intro x h
    rcases List.mem_cons.mp h with h2 | h2
    · subst h2
      simp [maxNat, List.foldr_cons, le_max_iff, le_refl, true_or]
    · simp only [maxNat, List.foldr_cons, le_max_iff]
      exact Or.inr (ih x h2)

lemma maxNat_le (l : List Nat) (b : Nat) (h : ∀ x ∈ l, x ≤ b) : maxNat l ≤ b := by
  induction l with
  | nil => exact Nat.zero_le b
  | cons a as ih =>
    simp only [maxNat, List.foldr_cons, max_le_iff]
    exact ⟨h a (List.mem_cons_self a as), ih (fun x hx => h x (List.mem_cons_of_mem a hx))⟩

lemma maxCnt_eq_of_uniqueMode [DecidableEq α] (l : List α) (m : α)
    (h : isUniqueMode l m) : maxCnt l = cnt m l := by
  obtain ⟨hm, hlt⟩ := h
  apply Nat.le_antisymm
  · apply maxNat_le
    intro x hx
    rcases List.mem_map.mp hx with ⟨v, hv, rfl⟩
    by_cases hvm : v = m
    · subst hvm; exact le_refl _
    · exact le_of_lt (hlt v hv hvm)
  · exact le_maxNat _ _ (List.mem_map_of_mem _ hm)

lemma nodup_all_eq_singleton (l : List α) (m : α) (hnd : l.Nodup)
    (hall : ∀ x ∈ l, x = m) (hm : m ∈ l) : l = [m] := by
  cases l with
  | nil => cases hm
  | cons a as =>
    have ha : a = m := hall a (List.mem_cons_self a as)
    subst ha
    have hnotin : a ∉ as := (List.nodup_cons.mp hnd).1
    have : as = [] := by
      cases as with
      | nil => rfl
      | cons b bs =>
        have hb : b = a := hall b (by simp)
        subst hb
        exact absurd (by simp : b ∈ b :: bs) hnotin
    rw [this]

lemma modeListBy_unique [DecidableEq α] (le : α → α → Bool) (l : List α) (m : α)
    (h : isUniqueMode l m) : modeListBy le l = [m] := by
  have hfilt : l.dedup.filter (fun v => decide (cnt v l = maxCnt l)) = [m] := by
    apply nodup_all_eq_singleton
    · exact (List.nodup_dedup l).filter _
    · intro x hx
      rcases List.mem_filter.mp hx with ⟨hxd, hxc⟩
      have hxl : x ∈ l := List.mem_dedup.mp hxd
      have hcx : cnt x l = maxCnt l := of_decide_eq_true hxc
      by_contra hxm
      have := h.2 x hxl hxm
      rw [hcx, maxCnt_eq_of_uniqueMode l m h] at this
      exact lt_irrefl _ this
    · apply List.mem_filter.mpr
      refine ⟨List.mem_dedup.mpr h.1, ?_⟩
      rw [maxCnt_eq_of_uniqueMode l m h]
      simp
  unfold modeListBy
  rw [hfilt]
  rfl

lemma lookup_map_self {β : Type} (l : List String) (f : String → β) (c : String)
    (h : c ∈ l) : List.lookup c (l.map (fun x => (x, f x))) = some (f c) := by
  induction l with
  | nil => cases h
  | cons a as ih =>
    simp only [List.map_cons, List.lookup]
    by_cases hca : c = a
    · subst hca; simp
    · have hbeq : (c == a) = false := beq_false_of_ne hca
      rw [hbeq]
      rcases List.mem_cons.mp h with h2 | h2
      · exact absurd h2 hca
      · exact ih h2

lemma mkCluster_ok (cont nom : List String) (vs : List Row) (cl : ClusterSt)
    (h : mkCluster cont nom vs = .ok cl) :
    cl.continuous = cont ∧ cl.nominal = nom ∧ cl.values = vs ∧
      calculate_centroid cont nom vs = .ok cl.centroid := by
  unfold mkCluster at h
  cases hc : calculate_centroid cont nom vs with
  | error e => rw [hc] at h; cases h
  | ok cen =>
    rw [hc] at h
    cases h
    exact ⟨rfl, rfl, rfl, rfl⟩

lemma calculate_centroid_contPart (cont nom : List String) (vs : List Row)
    (cen : Centroid) (h : calculate_centroid cont nom vs = .ok cen) :
    cen.contPart = cont.map (fun c => (c, listMean (colNums vs c))) := by
  simp only [calculate_centroid] at h
  split at h
  · split at h
    · cases h
    · cases h; rfl
  · split at h
    · cases h
    · cases h; rfl

lemma calculate_centroid_ok (cont nom : List String) (vs : List Row)
    (hne : vs ≠ [])
    (hm : ∀ c ∈ nom, ∃ m, isUniqueMode (colStrs vs c) m) :
    (nom = [] → ∃ r0 rest, vs = r0 :: rest ∧ calculate_centroid cont nom vs =
      .ok ⟨cont.map (fun c => (c, listMean (colNums vs c))), []⟩) ∧
    (nom ≠ [] → calculate_centroid cont nom vs =
      .ok ⟨cont.map (fun c => (c, listMean (colNums vs c))),
           nom.map (fun c => (c, modeList (colStrs vs c)))⟩) := by
  constructor
  · intro hn
    subst hn
    cases vs with
    | nil => exact absurd rfl hne
    | cons r0 rest =>
      refine ⟨r0, rest, rfl, ?_⟩
      rfl
  · intro hn
    have hlen : ∀ p ∈ nom.map (fun c => (c, modeList (colStrs vs c))),
        p.2.length = 1 := by
      intro p hp
      rcases List.mem_map.mp hp with ⟨c, hc, rfl⟩
      rcases hm c hc with ⟨m, hum⟩
      simp [modeList, modeListBy_unique strLE _ m hum]
    have hrows : maxNat ((nom.map (fun c => (c, modeList (colStrs vs c)))).map
        (fun p => p.2.length)) = 1 := by
      apply Nat.le_antisymm
      · apply maxNat_le
        intro x hx
        rcases List.mem_map.mp hx with ⟨p, hp, rfl⟩
        exact le_of_eq (hlen p hp)
      · cases nom with
        | nil => exact absurd rfl hn
        | cons c0 ncs =>
          have h1 : (1 : Nat) ∈ ((c0 :: ncs).map
              (fun c => (c, modeList (colStrs vs c)))).map (fun p => p.2.length) := by
            have hp0 : (c0, modeList (colStrs vs c0)) ∈ (c0 :: ncs).map
                (fun c => (c, modeList (colStrs vs c))) := by simp
            have := hlen _ hp0
            rcases List.mem_map.mp (List.mem_map_of_mem (fun p => p.2.length) hp0)
              with _
            have : (modeList (colStrs vs c0)).length ∈ ((c0 :: ncs).map
                (fun c => (c, modeList (colStrs vs c)))).map (fun p => p.2.length) :=
              List.mem_map_of_mem _ hp0
            rwa [hlen _ hp0] at this
          exact le_maxNat _ _ h1
    have hany : ((nom.map (fun c => (c, modeList (colStrs vs c)))).any
        (fun p => decide (p.2.length < 1))) = false := by
      apply List.any_eq_false.mpr
      intro p hp
      simp [hlen p hp]
    unfold calculate_centroid
    simp only [hrows]
    simp only [hany]
    norm_num

/-! ## Lemmas about sampling -/

lemma fst_ge_of_mem_enumFrom {α : Type} :
    ∀ (l : List α) (k : Nat) (p : Nat × α), p ∈ l.enumFrom k → k ≤ p.1 := by
  intro l
  induction l with
  | nil => intro k p h; cases h
  | cons a as ih =>
    intro k p h
    rw [List.enumFrom_cons] at h
    rcases List.mem_cons.mp h with h2 | h2
    · subst h2; exact le_refl k
    · exact le_trans (Nat.le_succ k) (ih (k + 1) p h2)

lemma enumFrom_filter_fst_eq {α : Type} :
    ∀ (l : List α) (k r : Nat) (h : r < l.length),
    (l.enumFrom k).filter (fun p => decide (p.1 = k + r))
      = [(k + r, l.get ⟨r, h⟩)] := by
  intro l
  induction l with
  | nil => intro k r h; exact absurd h (by simp)
  | cons a as ih =>
    intro k r h
    rw [List.enumFrom_cons]
    cases r with
    | zero =>
      rw [List.filter_cons_of_pos (by simp)]
      have hrest : (as.enumFrom (k + 1)).filter (fun p => decide (p.1 = k + 0)) = [] := by
        apply List.filter_eq_nil_iff.mpr
        intro p hp
        have := fst_ge_of_mem_enumFrom as (k + 1) p hp
        simp only [Nat.add_zero, decide_eq_true_eq]
        omega
      rw [hrest]
      rfl
    | succ r2 =>
      rw [List.filter_cons_of_neg (by simp only [decide_eq_true_eq]; omega)]
      have h2 : r2 < as.length := by
        simp only [List.length_cons] at h
        omega
      have := ih (k + 1) r2 h2
      have harith : k + 1 + r2 = k + (r2 + 1) := by omega
      rw [harith] at this
      rw [this]
      rfl

lemma filter_or_disjoint_perm {α : Type} (p q : α → Bool) :
    ∀ (l : List α), (∀ a ∈ l, ¬(p a = true ∧ q a = true)) →
    (l.filter (fun a => p a || q a)).Perm (l.filter p ++ l.filter q) := by
  intro l
  induction l with
  | nil => intro _; simp
  | cons a as ih =>
    intro hd
    have hd2 : ∀ b ∈ as, ¬(p b = true ∧ q b = true) :=
      fun b hb => hd b (List.mem_cons_of_mem a hb)
    have iha := ih hd2
    rw [List.filter_cons, List.filter_cons, List.filter_cons]
    cases hp : p a with
    | true =>
      have hq : q a = false := by
        cases hq : q a with
        | true => exact absurd ⟨hp, hq⟩ (hd a (List.mem_cons_self a as))
        | false => rfl
      simp only [hp, hq, Bool.true_or, if_pos, Bool.false_eq_true, if_neg,
        not_false_eq_true]
      simp only [List.cons_append]
      exact iha.cons a
    | false =>
      cases hq : q a with
      | true =>
        simp only [hp, hq, Bool.false_or, if_pos, Bool.false_eq_true, if_neg,
          not_false_eq_true]
        refine (iha.cons a).trans ?_
        exact List.perm_middle.symm
      | false =>
        simp only [hp, hq, Bool.false_or, Bool.false_eq_true, if_neg,
          not_false_eq_true]
        exact iha

lemma sample_perm (df : List Row) :
    ∀ (rows : List Nat), rows.Nodup → (∀ i ∈ rows, i < df.length) →
    (rows.filterMap (fun i => df.get? i)).Perm
      ((df.enum.filter (fun p => decide (p.1 ∈ rows))).map (fun p => p.2)) := by
  intro rows
  induction rows with
  | nil =>
    intro _ _
    simp
  | cons r rs ih =>
    intro hnd hb
    have hr : r < df.length := hb r (List.mem_cons_self r rs)
    have hnr : r ∉ rs := (List.nodup_cons.mp hnd).1
    have hnd2 : rs.Nodup := (List.nodup_cons.mp hnd).2
    have hb2 : ∀ i ∈ rs, i < df.length := fun i hi => hb i (List.mem_cons_of_mem r hi)
    have hcong : df.enum.filter (fun p => decide (p.1 ∈ r :: rs))
        = df.enum.filter (fun p => decide (p.1 = r) || decide (p.1 ∈ rs)) := by
      apply List.filter_congr
      intro p _
      simp [List.mem_cons]
    have hdisj : ∀ p ∈ df.enum, ¬(decide (p.1 = r) = true ∧ decide (p.1 ∈ rs) = true) := by
      intro p _ hand
      obtain ⟨h1, h2⟩ := hand
      rw [decide_eq_true_eq] at h1 h2
      rw [h1] at h2
      exact hnr h2
    have hsplit := filter_or_disjoint_perm (fun p => decide (p.1 = r))
      (fun p => decide (p.1 ∈ rs)) df.enum hdisj
    have hsingle : df.enum.filter (fun p => decide (p.1 = r))
        = [(r, df.get ⟨r, hr⟩)] := by
      have := enumFrom_filter_fst_eq df 0 r hr
      simpa [List.enum] using this
    simp only [List.filterMap_cons]
    rw [List.get?_eq_get hr]
    rw [hcong]
    refine List.Perm.trans ?_ ((hsplit.map (fun p => p.2)).symm)
    rw [hsingle]
    simp only [List.map_append, List.map_cons, List.map_nil, List.cons_append,
      List.nil_append]
    exact (ih hnd2 hb2).cons _

lemma sample_length (df : List Row) :
    ∀ (rows : List Nat), (∀ i ∈ rows, i < df.length) →
    (rows.filterMap (fun i => df.get? i)).length = rows.length := by
  intro rows
  induction rows with
  | nil => intro _; rfl
  | cons r rs ih =>
    intro hb
    have hr : r < df.length := hb r (List.mem_cons_self r rs)
    simp only [List.filterMap_cons]
    rw [List.get?_eq_get hr]
    simp only [List.length_cons]
    rw [ih (fun i hi => hb i (List.mem_cons_of_mem r hi))]

/-! ## Lemmas about the distance matrix and the merge loop -/

lemma minRowGo_fst (mn : Qinf) :
    ∀ (vs : List Qinf) (r c : Nat) (p : Nat × Nat),
    p ∈ minRowGo mn r c vs → p.1 = r := by
  intro vs
  induction vs with
  | nil => intro r c p h; cases h
  | cons v vs ih =>
    intro r c p h
    simp only [minRowGo] at h
    rcases List.mem_append.mp h with h2 | h2
    · split at h2
      · rcases List.mem_singleton.mp h2 with rfl
        rfl
      · cases h2
    · exact ih r (c + 1) p h2

lemma minCellsGo_fst_bounds (mn : Qinf) :
    ∀ (rows : List (List Qinf)) (r : Nat) (p : Nat × Nat),
    p ∈ minCellsGo mn r rows → r ≤ p.1 ∧ p.1 < r + rows.length := by
  intro rows
  induction rows with
  | nil => intro r p h; cases h
  | cons row rest ih =>
    intro r p h
    simp only [minCellsGo] at h
    rcases List.mem_append.mp h with h2 | h2
    · have := minRowGo_fst mn row r 0 p h2
      simp only [List.length_cons]
      omega
    · have := ih (r + 1) p h2
      simp only [List.length_cons]
      omega

lemma minCells_fst_lt (m : List (List Qinf)) (p : Nat × Nat)
    (h : p ∈ minCells m) : p.1 < m.length := by
  have := minCellsGo_fst_bounds (matMin m) m 0 p h
  omega


lemma hacMergeAt_ok_length (cs : List ClusterSt) (mx my : Nat)
    (cs2 : List ClusterSt) (h : hacMergeAt cs mx my = .ok cs2) :
    cs2.length = cs.length - 1 ∧ 2 ≤ cs.length := by
  unfold hacMergeAt at h
  by_cases hy : my < cs.length
  · rw [dif_pos hy] at h
    by_cases hx : mx < (cs.eraseIdx my).length
    · rw [dif_pos hx] at h
      cases hm : ((cs.eraseIdx my).get ⟨mx, hx⟩).merge_clusters
          (cs.get ⟨my, hy⟩) with
      | error e => simp only [hm] at h; cases h
      | ok merged =>
        simp only [hm] at h
        cases h
        rw [List.length_set, List.length_eraseIdx, if_pos hy]
        rw [List.length_eraseIdx, if_pos hy] at hx
        exact ⟨rfl, by omega⟩
    · rw [dif_neg hx] at h
      cases h
  · rw [dif_neg hy] at h
    cases h

lemma hacStep_ok_length (d : ClusterSt → ClusterSt → Except PyErr ℚ)
    (cs cs2 : List ClusterSt) (h : hacStep d cs = .ok cs2) :
    cs2.length = cs.length - 1 ∧ 2 ≤ cs.length := by
  unfold hacStep at h
  split at h
  · cases h
  · split at h
    · exact hacMergeAt_ok_length _ _ _ _ h
    · cases h

lemma hacLoop_ok_length (d : ClusterSt → ClusterSt → Except PyErr ℚ) (k : Nat) :
    ∀ (fuel : Nat) (cs cs2 : List ClusterSt),
    hacLoop d k fuel cs = .ok cs2 → k ≤ cs.length → cs.length ≤ k + fuel →
    cs2.length = k := by
  intro fuel
  induction fuel with
  | zero =>
    intro cs cs2 h hk hf
    cases h
    omega
  | succ f ih =>
    intro cs cs2 h hk hf
    by_cases hgt : cs.length > k
    · simp only [hacLoop] at h
      rw [if_pos hgt] at h
      cases hstep : hacStep d cs with
      | error e => rw [hstep] at h; cases h
      | ok cs3 =>
        rw [hstep] at h
        obtain ⟨hlen, h2⟩ := hacStep_ok_length d cs cs3 hstep
        exact ih cs3 cs2 h (by omega) (by omega)
    · simp only [hacLoop] at h
      rw [if_neg hgt] at h
      cases h
      omega

lemma hac_noop (d : ClusterSt → ClusterSt → Except PyErr ℚ) (k : Nat)
    (cs : List ClusterSt) (h : cs.length ≤ k) : hac d k cs = .ok cs := by
  unfold hac
  cases hcs : cs.length with
  | zero => rfl
  | succ n =>
    have hng : ¬(cs.length > k) := by omega
    simp only [hacLoop]
    rw [if_neg hng]

/-! ## Claim theorems -/

/-- C1 (counterexample to the claim as stated, two parts):
* with target count k = 0 (at most the initial sample size 1), the merge
  loop does not terminate with exactly k clusters: at cluster count 1 the
  matrix is the single masked cell `inf`, `np.where` yields the one
  coordinate [0], and `minimum[1]` raises IndexError;
* even for 1 ≤ k ≤ sample size an iteration can fail outright instead of
  decreasing the count: with k = 1 and two single-row clusters over nominal
  columns x, y (values a/p and b/p), the merge's centroid recomputation
  (`merge_clusters → add → calculate_centroid`) meets a tie-moded column
  next to a unique-moded one — the padded-NaN mode frame that steers into
  the syntactically broken line 108 — and HAC aborts with that error rather
  than reaching k clusters. -/
theorem C1_counterexample :
    ((0 : Nat) ≤ 1 ∧
      hac (fun _ _ => Except.ok (0 : ℚ)) 0
        [⟨[], ["x"], [[("x", Val.str "a")]], ⟨[], [("x", ["a"])]⟩⟩]
        = .error .indexError) ∧
    ((1 : Nat) ≤ 2 ∧
      hac (fun _ _ => Except.ok (0 : ℚ)) 1
        [⟨[], ["x", "y"], [[("x", Val.str "a"), ("y", Val.str "p")]],
           ⟨[], [("x", ["a"]), ("y", ["p"])]⟩⟩,
         ⟨[], ["x", "y"], [[("x", Val.str "b"), ("y", Val.str "p")]],
           ⟨[], [("x", ["b"]), ("y", ["p"])]⟩⟩]
        = .error .invalidCode) :=
  ⟨⟨by decide, rfl⟩, ⟨by decide, rfl⟩⟩

/-- C1 (amended): every iteration of the merge loop that completes decreases
the cluster count by exactly 1, and whenever the loop terminates normally
with k at most the initial cluster count it does so with exactly k clusters;
when k is at least the initial cluster count the loop performs zero merges
and is a no-op, not an error.  Normal termination is NOT guaranteed for
1 ≤ k ≤ sample size: a merge's centroid recomputation or a linkage distance
call can raise, aborting HAC mid-run (second half of the counterexample),
and for k = 0 the loop always dies with IndexError at cluster count 1.
Stated over the fallible linkage `d` (the `distance` calls of init_matrix /
update_matrix, which may themselves raise) and the real `merge_clusters`
with its centroid recomputation. -/
theorem C1_hac_merge_loop (d : ClusterSt → ClusterSt → Except PyErr ℚ)
    (k : Nat) (cs cs2 : List ClusterSt) :
    (∀ cs3 cs4, hacStep d cs3 = .ok cs4 → cs4.length = cs3.length - 1) ∧
    (hac d k cs = .ok cs2 → k ≤ cs.length → cs2.length = k) ∧
    (cs.length ≤ k → hac d k cs = .ok cs) := by
  refine ⟨?_, ?_, ?_⟩
  · intro cs3 cs4 h
    exact (hacStep_ok_length d cs3 cs4 h).1
  · intro h hk
    exact hacLoop_ok_length d k cs.length cs cs2 h hk (by omega)
  · exact hac_noop d k cs

/-- Witness for C1: two single-row clusters over one nominal column merge
into one cluster (the merge succeeds: the single tie-moded column needs no
NaN padding), exercising the step-decrement, the normal-termination count
and the no-op conjuncts at concrete inputs. -/
theorem C1_hac_merge_loop_witness :
    ([(⟨[], ["x"], [[("x", Val.str "a")], [("x", Val.str "b")]],
        ⟨[], [("x", ["a", "b"])]⟩⟩ : ClusterSt)] : List ClusterSt).length
      = ([(⟨[], ["x"], [[("x", Val.str "a")]], ⟨[], [("x", ["a"])]⟩⟩ : ClusterSt),
          ⟨[], ["x"], [[("x", Val.str "b")]], ⟨[], [("x", ["b"])]⟩⟩] :
          List ClusterSt).length - 1 ∧
    ([(⟨[], ["x"], [[("x", Val.str "a")], [("x", Val.str "b")]],
        ⟨[], [("x", ["a", "b"])]⟩⟩ : ClusterSt)] : List ClusterSt).length = 1 ∧
    hac (fun _ _ => Except.ok (0 : ℚ)) 5
      [⟨[], ["x"], [[("x", Val.str "a")]], ⟨[], [("x", ["a"])]⟩⟩,
       ⟨[], ["x"], [[("x", Val.str "b")]], ⟨[], [("x", ["b"])]⟩⟩]
      = .ok [⟨[], ["x"], [[("x", Val.str "a")]], ⟨[], [("x", ["a"])]⟩⟩,
             ⟨[], ["x"], [[("x", Val.str "b")]], ⟨[], [("x", ["b"])]⟩⟩] :=
  ⟨(C1_hac_merge_loop (fun _ _ => Except.ok (0 : ℚ)) 1
      [⟨[], ["x"], [[("x", Val.str "a")]], ⟨[], [("x", ["a"])]⟩⟩,
       ⟨[], ["x"], [[("x", Val.str "b")]], ⟨[], [("x", ["b"])]⟩⟩]
      [⟨[], ["x"], [[("x", Val.str "a")], [("x", Val.str "b")]],
        ⟨[], [("x", ["a", "b"])]⟩⟩]).1
      [⟨[], ["x"], [[("x", Val.str "a")]], ⟨[], [("x", ["a"])]⟩⟩,
       ⟨[], ["x"], [[("x", Val.str "b")]], ⟨[], [("x", ["b"])]⟩⟩]
      [⟨[], ["x"], [[("x", Val.str "a")], [("x", Val.str "b")]],
        ⟨[], [("x", ["a", "b"])]⟩⟩] (by decide),
   (C1_hac_merge_loop (fun _ _ => Except.ok (0 : ℚ)) 1
      [⟨[], ["x"], [[("x", Val.str "a")]], ⟨[], [("x", ["a"])]⟩⟩,
       ⟨[], ["x"], [[("x", Val.str "b")]], ⟨[], [("x", ["b"])]⟩⟩]
      [⟨[], ["x"], [[("x", Val.str "a")], [("x", Val.str "b")]],
        ⟨[], [("x", ["a", "b"])]⟩⟩]).2.1 (by decide) (by decide),
   (C1_hac_merge_loop (fun _ _ => Except.ok (0 : ℚ)) 5
      [⟨[], ["x"], [[("x", Val.str "a")]], ⟨[], [("x", ["a"])]⟩⟩,
       ⟨[], ["x"], [[("x", Val.str "b")]], ⟨[], [("x", ["b"])]⟩⟩] []).2.2
      (by decide)⟩

/-- C9 (counterexample to the claim as stated): in the 5×5 matrix
`mTwoPairs` the minimum occurs at TWO symmetric pairs, (1,2)/(2,1) and
(3,4)/(4,3) — not exactly one — yet the selected pair is still (1, 2): two
distinct existing clusters with min_x < min_y.  So distinct in-order
selection is not restricted to the exactly-one-symmetric-pair case, refuting
the claim's "only when". -/
theorem C9_counterexample :
    (hacSelect mTwoPairs = some (1, 2) ∧ (1 : Nat) < 2 ∧ 2 < mTwoPairs.length) ∧
    ¬ oneSymmPair mTwoPairs := by
  decide

/-- C9 (amended): both selected indices come from the row coordinates of the
minimal cells (`np.where(...)[0]`, row-major and hence non-decreasing);
whenever the minimum occurs at exactly one symmetric pair of off-diagonal
cells (i,j)/(j,i) with i < j, the selection is exactly (i, j): two distinct
existing cluster indices with min_x < min_y, so popping min_y leaves min_x
pointing at the same cluster.  (With further ties the selection may be a
valid distinct pair or may degenerate, e.g. to min_x = min_y.) -/
theorem C9_selection (m : List (List Qinf)) (i j : Nat) (hij : i < j)
    (hcells : minCells m = [(i, j), (j, i)]) :
    hacSelect m = some (i, j) ∧ i < j ∧ j < m.length := by
  have hcoords : minRowCoords m = [i, j] := by
    unfold minRowCoords
    rw [hcells]
    rfl
  refine ⟨?_, hij, ?_⟩
  · simp only [hacSelect, hcoords]
  · have hmem : ((j, i) : Nat × Nat) ∈ minCells m := by rw [hcells]; simp
    exact minCells_fst_lt m (j, i) hmem

/-- Witness for C9 at a 2×2 matrix whose minimum occurs exactly at the
symmetric pair (0,1)/(1,0). -/
theorem C9_selection_witness :
    hacSelect [[⊤, ((1 : ℚ) : Qinf)], [((1 : ℚ) : Qinf), ⊤]] = some (0, 1) ∧
    (0 : Nat) < 1 ∧
    1 < ([[⊤, ((1 : ℚ) : Qinf)], [((1 : ℚ) : Qinf), ⊤]] : List (List Qinf)).length :=
  C9_selection _ 0 1 (by decide) (by decide)

/-- C3 (counterexample to the claim as stated): for a dataset of N = 8
records the code draws `int(math.sqrt(8)) = 2` records — the FLOOR of the
square root — while the claim's `round(sqrt(8)) = 3`; so the sample size is
not round(sqrt(N)). -/
theorem C3_counterexample :
    floorSqrt 8 = 2 ∧ roundSqrt 8 = 3 ∧
    (get_random_samples
      [[("a", Val.num 0)], [("a", Val.num 1)], [("a", Val.num 2)],
       [("a", Val.num 3)], [("a", Val.num 4)], [("a", Val.num 5)],
       [("a", Val.num 6)], [("a", Val.num 7)]] [0, 1]).1.length = 2 ∧
    (2 : Nat) ≠ 3 := by
  decide

/-- C3 (amended): the sampling step draws exactly `int(math.sqrt(N))` — the
floor, not the rounding, of sqrt(N) — records without replacement; the drawn
records become the sample, every other record becomes the remainder, and
together they are a permutation of the dataset.  The index list `rows` is
the oracle for `random.sample`: distinct in-range labels of the requested
length. -/
theorem C3_sampling_partition (df : List Row) (rows : List Nat)
    (hnd : rows.Nodup) (hb : ∀ i ∈ rows, i < df.length)
    (hlen : rows.length = floorSqrt df.length) :
    (get_random_samples df rows).1.length = floorSqrt df.length ∧
    ((get_random_samples df rows).1 ++ (get_random_samples df rows).2).Perm df := by
  constructor
  · show (rows.filterMap (fun i => df.get? i)).length = floorSqrt df.length
    rw [sample_length df rows hb]
    exact hlen
  · have h1 := sample_perm df rows hnd hb
    have hcong : df.enum.filter (fun p => decide (p.1 ∉ rows))
        = df.enum.filter (fun a => !(decide (a.1 ∈ rows))) := by
      apply List.filter_congr
      intro p _
      simp [decide_not]
    have h2 : ((df.enum.filter (fun a => decide (a.1 ∈ rows))).map (fun p => p.2) ++
        (df.enum.filter (fun a => !(decide (a.1 ∈ rows)))).map (fun p => p.2)).Perm df := by
      rw [← List.map_append]
      have h3 := List.filter_append_perm (fun a => decide (a.1 ∈ rows)) df.enum
      have h4 := h3.map (fun p => p.2)
      rw [List.enum_map_snd] at h4
      exact h4
    show ((rows.filterMap (fun i => df.get? i)) ++
      (df.enum.filter (fun p => decide (p.1 ∉ rows))).map (fun p => p.2)).Perm df
    rw [hcong]
    exact (List.Perm.append h1 (List.Perm.refl _)).trans h2

/-- Witness for C3 at a concrete 2-record dataset with drawn index 1
(sample size floorSqrt 2 = 1). -/
theorem C3_sampling_partition_witness :
    (get_random_samples [[("a", Val.num 0)], [("a", Val.num 1)]] [1]).1.length
      = floorSqrt 2 ∧
    ((get_random_samples [[("a", Val.num 0)], [("a", Val.num 1)]] [1]).1 ++
      (get_random_samples [[("a", Val.num 0)], [("a", Val.num 1)]] [1]).2).Perm
      [[("a", Val.num 0)], [("a", Val.num 1)]] :=
  C3_sampling_partition _ _ (by decide) (by decide) (by decide)

/-- C4 (code bug): `replace_missing_values` routes every column whose dtype
is not `int64` — including a real-valued `float64` column — to the MODE
branch.  The `float64` column [1, 1, NaN, 5] has its gap filled with the
mode 1, not the mean 7/3 the claim requires.  (A column containing a missing
value can never have dtype `int64` in pandas, so the mean branch is
unreachable for any column that actually has gaps.) -/
theorem C4_continuous_gap_mode_filled :
    replace_missing_values
      [⟨Dtype.float64, [some (Val.num 1), some (Val.num 1), none, some (Val.num 5)]⟩]
      = .ok [⟨Dtype.float64,
          [some (Val.num 1), some (Val.num 1), some (Val.num 1), some (Val.num 5)]⟩] ∧
    listMean (numsOf (presentVals ⟨Dtype.float64,
      [some (Val.num 1), some (Val.num 1), none, some (Val.num 5)]⟩)) = 7 / 3 ∧
    (1 : ℚ) ≠ 7 / 3 := by
  refine ⟨rfl, ?_, by norm_num⟩
  norm_num [listMean, numsOf, presentVals, List.filterMap_cons, List.filterMap_nil,
    List.sum_cons, List.sum_nil]

/-- C2 (counterexample to the claim as stated): in a two-member cluster whose
single nominal column holds "b" in the first record and "a" in the second,
the mode is tied; pandas `DataFrame.mode()` returns BOTH values in ascending
order, so the centroid's nominal column is ["a", "b"] — not the first
record's value "b" as the claim states.  (Had the tie resolved to the first
record, the column would be the single value ["b"].) -/
theorem C2_counterexample :
    calculate_centroid [] ["x"] [[("x", Val.str "b")], [("x", Val.str "a")]]
      = .ok ⟨[], [("x", ["a", "b"])]⟩ ∧
    firstStr [("x", Val.str "b")] "x" = ["b"] ∧
    (["a", "b"] : List String) ≠ ["b"] :=
  ⟨rfl, rfl, by decide⟩

/-- C2 (amended): immediately after construction, add, or merge, the
centroid holds, for every continuous attribute, the arithmetic mean over the
current members; for every nominal attribute whose mode is unique, exactly
that mode; ties are resolved by pandas to the sorted list of all modal
values, not to the first record's value.  Member counts evolve as claimed
(+1 on add, additive on merge).  Stated for any non-empty member list whose
nominal columns have unique modes (so that the syntactically broken NaN
branch of line 108 is not reached). -/
theorem C2_centroid_mean_mode (cont nom : List String) (vs : List Row)
    (hne : vs ≠ [])
    (hm : ∀ c ∈ nom, ∃ m, isUniqueMode (colStrs vs c) m) :
    ∃ cl, mkCluster cont nom vs = .ok cl ∧ cl.values = vs ∧
      (∀ c ∈ cont, List.lookup c cl.centroid.contPart
        = some (listMean (colNums vs c))) ∧
      (∀ c ∈ nom, ∀ m, isUniqueMode (colStrs vs c) m →
        List.lookup c cl.centroid.nomPart = some [m]) ∧
      (∀ r cl2, cl.add r = .ok cl2 → cl2.values.length = cl.values.length + 1 ∧
        ∀ c ∈ cont, List.lookup c cl2.centroid.contPart
          = some (listMean (colNums (vs ++ [r]) c))) ∧
      (∀ other cl2, cl.merge_clusters other = .ok cl2 →
        cl2.values.length = cl.values.length + other.values.length) := by
  have hcc := calculate_centroid_ok cont nom vs hne hm
  have hok : ∃ nomPart, calculate_centroid cont nom vs =
      .ok ⟨cont.map (fun c => (c, listMean (colNums vs c))), nomPart⟩ ∧
      (nom ≠ [] → nomPart = nom.map (fun c => (c, modeList (colStrs vs c)))) := by
    by_cases hn : nom = []
    · rcases hcc.1 hn with ⟨r0, rest, hvs, hres⟩
      exact ⟨[], hres, fun hnn => absurd hn hnn⟩
    · exact ⟨_, hcc.2 hn, fun _ => rfl⟩
  rcases hok with ⟨nomPart, hres, hnomPart⟩
  refine ⟨⟨cont, nom, vs,
    ⟨cont.map (fun c => (c, listMean (colNums vs c))), nomPart⟩⟩, ?_, rfl, ?_, ?_, ?_, ?_⟩
  · unfold mkCluster
    rw [hres]
    rfl
  · intro c hc
    exact lookup_map_self cont _ c hc
  · intro c hc m hum
    have hn : nom ≠ [] := by intro hn; subst hn; cases hc
    show List.lookup c nomPart = some [m]
    rw [hnomPart hn]
    rw [lookup_map_self nom (fun c => modeList (colStrs vs c)) c hc]
    exact congrArg some (modeListBy_unique strLE (colStrs vs c) m hum)
  · intro r cl2 hadd
    rcases mkCluster_ok _ _ _ _ hadd with ⟨_, _, hvals, hcen⟩
    constructor
    · rw [hvals]; simp
    · intro c hc
      rw [calculate_centroid_contPart _ _ _ _ hcen]
      exact lookup_map_self cont _ c hc
  · intro other cl2 hmerge
    rcases mkCluster_ok _ _ _ _ hmerge with ⟨_, _, hvals, _⟩
    rw [hvals]
    simp

/-- Witness for C2 at a concrete two-member cluster with one continuous and
one nominal attribute (unique mode "u"). -/
theorem C2_centroid_mean_mode_witness :
    ∃ cl, mkCluster ["age"] ["job"]
        [[("age", Val.num 1), ("job", Val.str "u")],
         [("age", Val.num 3), ("job", Val.str "u")]] = .ok cl ∧
      cl.values = [[("age", Val.num 1), ("job", Val.str "u")],
         [("age", Val.num 3), ("job", Val.str "u")]] ∧
      (∀ c ∈ ["age"], List.lookup c cl.centroid.contPart
        = some (listMean (colNums [[("age", Val.num 1), ("job", Val.str "u")],
            [("age", Val.num 3), ("job", Val.str "u")]] c))) ∧
      (∀ c ∈ ["job"], ∀ m, isUniqueMode (colStrs
          [[("age", Val.num 1), ("job", Val.str "u")],
           [("age", Val.num 3), ("job", Val.str "u")]] c) m →
        List.lookup c cl.centroid.nomPart = some [m]) ∧
      (∀ r cl2, cl.add r = .ok cl2 → cl2.values.length = cl.values.length + 1 ∧
        ∀ c ∈ ["age"], List.lookup c cl2.centroid.contPart
          = some (listMean (colNums ([[("age", Val.num 1), ("job", Val.str "u")],
              [("age", Val.num 3), ("job", Val.str "u")]] ++ [r]) c))) ∧
      (∀ other cl2, cl.merge_clusters other = .ok cl2 →
        cl2.values.length = cl.values.length + other.values.length) :=
  C2_centroid_mean_mode ["age"] ["job"] _ (by decide)
    (by
      intro c hc
      have hcx : c = "job" := by
        rcases List.mem_cons.mp hc with h2 | h2
        · exact h2
        · cases h2
      subst hcx
      exact ⟨"u", by decide⟩)

/-- C5 (code bug): `intra_distance` never returns the claimed sum.  Its loop
header `for i in range(0, len(self))` evaluates `len(self)`, which raises
`TypeError` because `Cluster` defines no `__len__` (its `len`, lines
121-124, is a classmethod that the built-in `len()` does not consult, and
which is itself broken, reading the non-existent class attribute
`cls.values`); moreover the function body never returns the accumulated
`dist`, so even a completed loop would yield `None`. -/
theorem C5_intra_distance_raises :
    intra_distance ⟨[], ["x"], [[("x", Val.str "a")]], ⟨[], [("x", ["a"])]⟩⟩
      = .error .typeError :=
  rfl

/-- C6 (code bug): a cluster with two nominal columns, one tie-moded
("a"/"b") and one unique-moded ("p"), makes pandas pad the mode frame with
NaN, steering `calculate_centroid` into the branch at lines 106-108; but
line 108, `mode = self.values[self.values[self.nominal].iloc[0]`, has
unbalanced brackets — a SyntaxError (the module cannot even be imported), so
the claimed local recovery to the first member's value never happens and
centroid computation is not non-throwing. -/
theorem C6_mode_fallback_broken :
    calculate_centroid [] ["x", "y"]
      [[("x", Val.str "a"), ("y", Val.str "p")],
       [("x", Val.str "b"), ("y", Val.str "p")]]
      = .error .invalidCode :=
  rfl

/-- C7: for all records x and y sharing the same attribute schema (same
ordered attribute names, no duplicate names, positionally matching value
kinds), `distance(x, y) = distance(y, x)` for either value of the squared
flag.  Confirmed. -/
theorem C7_distance_symmetric (x y : Row) (hk : keys x = keys y)
    (hnd : (keys x).Nodup) (ha : alignedKinds x y = true) (squared : Bool) :
    distance x y squared = distance y x squared := by
  unfold distance
  rw [distance_sq_symm x y hk hnd ha]

/-- Witness for C7 at a concrete pair of schema-sharing records. -/
theorem C7_distance_symmetric_witness :
    distance [("age", Val.num 1), ("job", Val.str "u")]
      [("age", Val.num 2), ("job", Val.str "v")] false
    = distance [("age", Val.num 2), ("job", Val.str "v")]
      [("age", Val.num 1), ("job", Val.str "u")] false :=
  C7_distance_symmetric _ _ (by decide) (by decide) (by decide) false

/-- C8 (counterexample to the claim as stated): the pair below does not
share the attribute name "b" (it is present only in the second operand), yet
`distance` raises no lookup error — it returns a number, because the loop
iterates only over the first operand's attributes. -/
theorem C8_counterexample :
    ("b" ∈ keys [("a", Val.num 0), ("b", Val.num 0)] ∧
      "b" ∉ keys [("a", Val.num 0)]) ∧
    (∃ q, distance_sq [("a", Val.num 0)] [("a", Val.num 0), ("b", Val.num 0)]
      = .ok q) :=
  ⟨by decide, ⟨_, rfl⟩⟩

/-- C8 (amended): whenever some attribute of the FIRST operand is absent
from the second (and the attributes that are found are type-compatible, so
no TypeError fires first), `distance` raises `KeyError`, which the
`except KeyError` handler at lines 353-357 logs and re-raises to the caller
rather than swallowing.  An attribute present only in the second operand
triggers no error. -/
theorem C8_missing_key_raises (x y : Row) (hw : wellTyped x y = true)
    (hm : missingSome x y = true) (squared : Bool) :
    distance x y squared = .error .keyError := by
  unfold distance
  rw [distance_sq_keyError x y hw hm]
  rfl

/-- Witness for C8 at a concrete pair with a missing attribute. -/
theorem C8_missing_key_raises_witness :
    distance [("a", Val.num 1), ("b", Val.num 2)] [("a", Val.num 1)] false
      = .error .keyError :=
  C8_missing_key_raises _ _ (by decide) (by decide) false

/-- C10: the distance function is not total over mixed-typed operands: with
x holding a numeric value and y a string value at attribute "a",
`distance(x, y)` raises `TypeError` (only x's value is type-tested before
the subtraction `(j-k)**2`), while the reversed call returns a number.
Confirmed. -/
theorem C10_distance_type_error :
    distance [("a", Val.num 1)] [("a", Val.str "b")] false
      = .error .typeError ∧
    (∃ q, distance_sq [("a", Val.str "b")] [("a", Val.num 1)] = .ok q) :=
  ⟨rfl, ⟨_, rfl⟩⟩

end BuckshotML
